import Mathlib

/-!
Verification of `break_reminder.py` (constatza/break-reminder).

The script is a desktop daemon that reminds the user to take breaks during
configured work hours.  This file gives a shallow embedding of its pure
logic: times of day (`datetime.time`), date-times (`datetime.datetime`
restricted to a day index plus a time of day), the work-hours membership
check `within_work_hours`, the next-work-start computation of
`sleep_until_work_start` / `time_until`, the configuration loading pipeline
(`get_config_path`, `load_config`, `parse_time`), and the main reminder
loop as a step function producing a trace of notification / sleep events.
Clock readings, the file system and environment variables are passed as
explicit arguments.  Durations are expressed in integer microseconds (the
resolution of `datetime.timedelta`) so that all arithmetic is exact.
-/

namespace BreakReminder

/-- A time of day, mirroring Python `datetime.time` (hour, minute, second,
microsecond).  Values produced by the program always satisfy `Time.Valid`. -/
structure Time where
  hour : Nat
  minute : Nat
  second : Nat
  microsecond : Nat
deriving DecidableEq, Repr

/-- The range constraints `datetime.time`'s constructor enforces. -/
def Time.Valid (t : Time) : Prop :=
  t.hour < 24 ∧ t.minute < 60 ∧ t.second < 60 ∧ t.microsecond < 1000000

instance (t : Time) : Decidable t.Valid := by
  unfold Time.Valid
  infer_instance

/-- Microseconds since midnight; the natural linear order on times of day. -/
def Time.toMicro (t : Time) : Nat :=
  ((t.hour * 60 + t.minute) * 60 + t.second) * 1000000 + t.microsecond

/-- Python `datetime.time` comparison: lexicographic on
(hour, minute, second, microsecond). -/
def Time.le (a b : Time) : Bool :=
  if a.hour = b.hour then
    if a.minute = b.minute then
      if a.second = b.second then decide (a.microsecond ≤ b.microsecond)
      else decide (a.second < b.second)
    else decide (a.minute < b.minute)
  else decide (a.hour < b.hour)

/-- `within_work_hours(start, end)` from the source: reads the current
time of day (here the explicit argument `now`) and evaluates the chained
comparison `start <= now <= end` on `datetime.time` values. -/
def within_work_hours (start endT now : Time) : Bool :=
  start.le now && now.le endT

/-- A date-time, mirroring `datetime.datetime`: the date is reduced to a
day index (days are all 86400 seconds long here; the script never crosses a
DST boundary inside a single sleep computation in the model). -/
structure DateTime where
  day : Nat
  time : Time
deriving DecidableEq, Repr

/-- Microseconds since the epoch of day 0. -/
def DateTime.toMicro (d : DateTime) : Nat :=
  d.day * 86400000000 + d.time.toMicro

/-- Python `datetime.datetime` comparison: lexicographic on (date, time). -/
def DateTime.le (a b : DateTime) : Bool :=
  if a.day = b.day then a.time.le b.time else decide (a.day < b.day)

/-- The `next_start` computed inside `sleep_until_work_start`:
`today_start = combine(now.date(), start)`; if `now >= today_start` the
next start is tomorrow at `start`, otherwise it is `today_start`. -/
def next_work_start (now : DateTime) (start : Time) : DateTime :=
  let today_start : DateTime := ⟨now.day, start⟩
  if DateTime.le today_start now then ⟨now.day + 1, start⟩ else today_start

/-- `time_until(target)` from the source: `max((target - now).total_seconds(), 0)`,
with the clock reading `now` made explicit and the duration expressed in
exact integer microseconds instead of a float of seconds. -/
def time_until (now target : DateTime) : Int :=
  max ((target.toMicro : Int) - (now.toMicro : Int)) 0

/-- The `sleep_duration` that `sleep_until_work_start` suspends for
(in microseconds): the time until the next occurrence of `start`. -/
def seconds_until_next_start (now : DateTime) (start : Time) : Int :=
  time_until now (next_work_start now start)

/-- The fixed notification title from the source. -/
def NOTIFICATION_TITLE : String := "Break Reminder"

/-- The fixed steady-state reminder message from the source. -/
def NOTIFICATION_MESSAGE : String := "It's time to take a break and stretch!"

/-- Observable actions of one pass through the `while True` body of `main`:
a `send_notification(title, message, timeout)` call, an
`asyncio.sleep(interval)` suspension, or the `sleep_until_work_start`
suspension taken on the out-of-window branch. -/
inductive Event where
  | notify (title message : String) (timeout : Nat)
  | sleepInterval (seconds : Int)
  | sleepUntilStart
deriving DecidableEq, Repr

/-- One iteration of the `while True` loop in `main`, parameterised by the
result `inWindow` of this iteration's `within_work_hours` check (the clock
reading is external input) and the current `first_run` flag.  Returns the
events of the iteration in order and the flag value after the iteration. -/
def loopIter (interval : Int) (inWindow first_run : Bool) :
    List Event × Bool :=
  if inWindow then
    if first_run then
      ([Event.notify NOTIFICATION_TITLE "Starting work." 10,
        Event.sleepInterval interval], false)
    else
      ([Event.notify NOTIFICATION_TITLE NOTIFICATION_MESSAGE 10,
        Event.sleepInterval interval], first_run)
  else
    ([Event.sleepUntilStart], true)

/-- The loop run against a finite prefix of window-check results, starting
from flag value `first_run`; concatenates the events of the iterations. -/
def loopRun (interval : Int) : Bool → List Bool → List Event
  | _, [] => []
  | first_run, b :: bs =>
    (loopIter interval b first_run).1 ++
      loopRun interval (loopIter interval b first_run).2 bs

/-- Default notification interval in seconds (`DEFAULT_INTERVAL`). -/
def DEFAULT_INTERVAL : Int := 3600

/-- Default work start (`DEFAULT_START`). -/
def DEFAULT_START : String := "09:00"

/-- Default work end (`DEFAULT_END`). -/
def DEFAULT_END : String := "17:00"

/-- System-wide configuration path (`SYSTEM_CONFIG_PATH`). -/
def SYSTEM_CONFIG_PATH : String := "/etc/xdg/break-reminder.conf"

/-- ASCII whitespace as stripped by Python `int(str)`. -/
def isPySpace (c : Char) : Bool :=
  c = ' ' || c = '\t' || c = '\n' || c = '\r' || c = '\x0b' || c = '\x0c'

/-- Decimal digits after the first, allowing single underscores between
digits as Python integer literals do. -/
def digitsUGo (acc : Nat) : List Char → Option Nat
  | [] => some acc
  | c :: cs =>
    if c.isDigit then digitsUGo (acc * 10 + (c.toNat - 48)) cs
    else if c = '_' then
      match cs with
      | [] => none
      | d :: cs2 =>
        if d.isDigit then digitsUGo (acc * 10 + (d.toNat - 48)) cs2
        else none
    else none

/-- A non-empty digit string (with optional internal underscores). -/
def digitsU : List Char → Option Nat
  | [] => none
  | c :: cs => if c.isDigit then digitsUGo (c.toNat - 48) cs else none

/-- Python `int(str)` as used by `ConfigParser.getint`: strips surrounding
whitespace, accepts an optional sign and a non-empty run of decimal digits
(with underscore separators); anything else raises `ValueError` (`none`). -/
def pyParseInt (s : String) : Option Int :=
  let cs := ((s.toList.dropWhile isPySpace).reverse.dropWhile isPySpace).reverse
  match cs with
  | [] => none
  | c :: rest =>
    if c = '-' then (digitsU rest).map (fun n => -(n : Int))
    else if c = '+' then (digitsU rest).map (fun n => (n : Int))
    else (digitsU (c :: rest)).map (fun n => (n : Int))

/-- At most two leading decimal digits (at least one), as matched by the
regexes `_strptime` builds for `%H` and `%M`. -/
def parse2Digits : List Char → Option (Nat × List Char)
  | [] => none
  | [c] => if c.isDigit then some (c.toNat - 48, []) else none
  | c1 :: c2 :: rest =>
    if c1.isDigit then
      if c2.isDigit then some ((c1.toNat - 48) * 10 + (c2.toNat - 48), rest)
      else some (c1.toNat - 48, c2 :: rest)
    else none

/-- `parse_time(time_str)` from the source:
`datetime.datetime.strptime(time_str, "%H:%M").time()`.  The whole string
must be one-or-two digits, a colon, and one-or-two digits, with the hour in
0–23 and the minute in 0–59; otherwise `ValueError` is raised (`none`). -/
def parse_time (s : String) : Option Time :=
  match parse2Digits s.toList with
  | none => none
  | some (hh, rest) =>
    match rest with
    | ':' :: rest2 =>
      match parse2Digits rest2 with
      | none => none
      | some (mm, rest3) =>
        if rest3 = [] ∧ hh ≤ 23 ∧ mm ≤ 59 then some ⟨hh, mm, 0, 0⟩
        else none
    | _ => none

/-- A parsed INI file as `configparser` exposes it: a finite map from
(section, option) pairs to raw string values. -/
structure ConfigFile where
  entries : List ((String × String) × String)
deriving DecidableEq

/-- Option lookup: `none` when the section or the option is missing. -/
def ConfigFile.get (f : ConfigFile) (sec key : String) : Option String :=
  (f.entries.find? (fun e => e.1.1 == sec && e.1.2 == key)).map (fun e => e.2)

/-- The dictionary returned by `load_config`: a raw interval integer and
the raw `start` / `end` strings (parsed into times only later, in `main`). -/
structure RawConfig where
  interval : Int
  start : String
  endt : String
deriving DecidableEq

/-- `load_config(config_path)` from the source, with the outcome of
`os.path.exists` folded into the `Option`: a missing file yields all
defaults; otherwise `getint("schedule", "interval", fallback=3600)` (which
raises on a present-but-malformed integer) and
`get("workhours", "start"/"end")` with string fallbacks. -/
def load_config (file : Option ConfigFile) : Except String RawConfig :=
  match file with
  | none => Except.ok ⟨DEFAULT_INTERVAL, DEFAULT_START, DEFAULT_END⟩
  | some f =>
    match f.get "schedule" "interval" with
    | none =>
      Except.ok ⟨DEFAULT_INTERVAL,
        (f.get "workhours" "start").getD DEFAULT_START,
        (f.get "workhours" "end").getD DEFAULT_END⟩
    | some s =>
      match pyParseInt s with
      | none =>
        Except.error (String.append "invalid literal for int with base 10: " s)
      | some n =>
        Except.ok ⟨n,
          (f.get "workhours" "start").getD DEFAULT_START,
          (f.get "workhours" "end").getD DEFAULT_END⟩

/-- The configuration as `main` holds it after parsing both time strings. -/
structure Configuration where
  interval : Int
  work_start : Time
  work_end : Time
deriving DecidableEq

/-- The configuration-resolution pipeline executed at the top of `main`:
`load_config` followed by `parse_time` on the start and end strings.  Any
`ValueError` from `getint` or `strptime` propagates (`Except.error`). -/
def resolve (file : Option ConfigFile) : Except String Configuration :=
  match load_config file with
  | Except.error e => Except.error e
  | Except.ok raw =>
    match parse_time raw.start with
    | none =>
      Except.error (String.append "time data does not match format: " raw.start)
    | some ws =>
      match parse_time raw.endt with
      | none =>
        Except.error (String.append "time data does not match format: " raw.endt)
      | some we => Except.ok ⟨raw.interval, ws, we⟩

/-- `true` exactly on the error constructor. -/
def isError {α : Type} : Except String α → Bool
  | Except.error _ => true
  | Except.ok _ => false

/-- Whether the first list is an initial segment of the second. -/
def listStarts : List Char → List Char → Bool
  | [], _ => true
  | _ :: _, [] => false
  | a :: as, b :: bs => a = b && listStarts as bs

/-- `s.startswith(p)` on strings, via character lists so that concrete
instances evaluate. -/
def strStarts (s p : String) : Bool := listStarts p.toList s.toList

/-- `s.endswith(p)` on strings. -/
def strEnds (s p : String) : Bool :=
  listStarts p.toList.reverse s.toList.reverse

/-- `os.path.join(a, b)` restricted to the shapes the script uses. -/
def pathJoin (a b : String) : String :=
  if strStarts b "/" then b
  else if a = "" then b
  else if strEnds a "/" then a ++ b
  else a ++ "/" ++ b

/-- `os.path.expanduser` for the one pattern the script passes
(`"~/.config"`), with the home directory made explicit. -/
def expanduser (home p : String) : String :=
  if strStarts p "~/" then home ++ p.drop 1 else p

/-- `USER_CONFIG_PATH`: `os.path.join` of
`os.environ.get("XDG_CONFIG_HOME", os.path.expanduser("~/.config"))` with
`"break-reminder.conf"`; the environment variable is an explicit
`Option String` argument. -/
def USER_CONFIG_PATH (xdg : Option String) (home : String) : String :=
  pathJoin (xdg.getD (expanduser home "~/.config")) "break-reminder.conf"

/-- `get_config_path()` from the source, with `os.path.exists` made an
explicit oracle `fsExists`. -/
def get_config_path (fsExists : String → Bool) (xdg : Option String)
    (home : String) : String :=
  if fsExists (USER_CONFIG_PATH xdg home) then USER_CONFIG_PATH xdg home
  else SYSTEM_CONFIG_PATH

/-- The ambient state configuration resolution reads: the file system (a
partial map from paths to parsed INI files) and the relevant environment
(`XDG_CONFIG_HOME` and the home directory). -/
structure World where
  fs : String → Option ConfigFile
  xdg : Option String
  home : String

/-- The whole resolution pipeline run against the ambient state, returned
together with the state it leaves behind: `get_config_path` (whose
existence check is `(fs p).isSome`), then `load_config` on the chosen
path's contents, then the two `parse_time` calls.  The code only reads, so
the state passes through unchanged. -/
def resolveWorld (w : World) : Except String Configuration × World :=
  let path := get_config_path (fun p => (w.fs p).isSome) w.xdg w.home
  (resolve (w.fs path), w)

/-- A time built from an in-range hour and minute is valid. -/
theorem Time.valid_mk {h m : Nat} (hh : h < 24) (hm : m < 60) :
    Time.Valid ⟨h, m, 0, 0⟩ := ⟨hh, hm, Nat.succ_pos 59, Nat.succ_pos 999999⟩

/-- On valid times, the lexicographic comparison agrees with the order by
microseconds since midnight. -/
theorem Time.le_iff_toMicro {a b : Time} (ha : a.Valid) (hb : b.Valid) :
    a.le b = true ↔ a.toMicro ≤ b.toMicro := by
  obtain ⟨ha1, ha2, ha3, ha4⟩ := ha
  obtain ⟨hb1, hb2, hb3, hb4⟩ := hb
  unfold Time.le Time.toMicro
  split_ifs with h1 h2 h3 <;> simp <;> omega

/-- On valid times, microseconds since midnight determine the time. -/
theorem Time.toMicro_inj {a b : Time} (ha : a.Valid) (hb : b.Valid)
    (h : a.toMicro = b.toMicro) : a = b := by
  cases a
  cases b
  simp only [Time.Valid] at ha hb
  obtain ⟨ha1, ha2, ha3, ha4⟩ := ha
  obtain ⟨hb1, hb2, hb3, hb4⟩ := hb
  simp only [Time.toMicro] at h
  simp only [Time.mk.injEq]
  omega

/-- A valid time of day is below one day of microseconds. -/
theorem Time.toMicro_lt_day {t : Time} (h : t.Valid) :
    t.toMicro < 86400000000 := by
  obtain ⟨h1, h2, h3, h4⟩ := h
  unfold Time.toMicro
  omega

example : parse_time "09:00" = some ⟨9, 0, 0, 0⟩ := by decide
example : parse_time "17:00" = some ⟨17, 0, 0, 0⟩ := by decide
example : parse_time "9:5" = some ⟨9, 5, 0, 0⟩ := by decide
example : parse_time "24:00" = none := by decide
example : parse_time "09:60" = none := by decide
example : parse_time "9am" = none := by decide
example : parse_time "" = none := by decide
example : pyParseInt " 3600 " = some 3600 := by decide
example : pyParseInt "-7" = some (-7) := by decide
example : pyParseInt "3_600" = some 3600 := by decide
example : pyParseInt "abc" = none := by decide
example : pyParseInt "3.5" = none := by decide
example : pyParseInt "" = none := by decide

/-- A time produced by `parse_time` satisfies the `datetime.time` range
invariant. -/
theorem parse_time_valid {s : String} {t : Time}
    (h : parse_time s = some t) : t.Valid := by
  unfold parse_time at h
  split at h
  · exact absurd h (by simp)
  · split at h
    · split at h
      · exact absurd h (by simp)
      · split at h
        · rename_i hcond
          obtain ⟨hrest, hh23, hm59⟩ := hcond
          injection h with h
          subst h
          exact Time.valid_mk (by omega) (by omega)
        · exact absurd h (by simp)
    · exact absurd h (by simp)

/-- C1: the work-hours membership check is true iff
`start <= now <= end` (inclusive on both ends, comparing times of day
only); a window with `start == end` contains exactly that instant, and a
window with `start > end` contains no instant at all. -/
theorem within_work_hours_spec (start endT now : Time)
    (hs : start.Valid) (he : endT.Valid) (hn : now.Valid) :
    (within_work_hours start endT now = true ↔
      start.toMicro ≤ now.toMicro ∧ now.toMicro ≤ endT.toMicro) ∧
    (start = endT →
      (within_work_hours start endT now = true ↔ now = start)) ∧
    (endT.toMicro < start.toMicro → within_work_hours start endT now = false) := by
  have h1 := Time.le_iff_toMicro hs hn
  have h2 := Time.le_iff_toMicro hn he
  have hmain : within_work_hours start endT now = true ↔
      start.toMicro ≤ now.toMicro ∧ now.toMicro ≤ endT.toMicro := by
    simp [within_work_hours, h1, h2]
  refine ⟨hmain, ?_, ?_⟩
  · rintro rfl
    rw [hmain]
    constructor
    · rintro ⟨hle1, hle2⟩
      exact Time.toMicro_inj hn hs (le_antisymm hle2 hle1)
    · rintro rfl
      exact ⟨le_refl _, le_refl _⟩
  · intro hlt
    rw [← Bool.not_eq_true, hmain]
    rintro ⟨hle1, hle2⟩
    omega

/-- Witness for C1 at a concrete window 09:00–17:00 and clock 10:30. -/
theorem within_work_hours_spec_witness :
    (within_work_hours ⟨9, 0, 0, 0⟩ ⟨17, 0, 0, 0⟩ ⟨10, 30, 0, 0⟩ = true ↔
      Time.toMicro ⟨9, 0, 0, 0⟩ ≤ Time.toMicro ⟨10, 30, 0, 0⟩ ∧
      Time.toMicro ⟨10, 30, 0, 0⟩ ≤ Time.toMicro ⟨17, 0, 0, 0⟩) ∧
    ((⟨9, 0, 0, 0⟩ : Time) = ⟨17, 0, 0, 0⟩ →
      (within_work_hours ⟨9, 0, 0, 0⟩ ⟨17, 0, 0, 0⟩ ⟨10, 30, 0, 0⟩ = true ↔
        (⟨10, 30, 0, 0⟩ : Time) = ⟨9, 0, 0, 0⟩)) ∧
    (Time.toMicro ⟨17, 0, 0, 0⟩ < Time.toMicro ⟨9, 0, 0, 0⟩ →
      within_work_hours ⟨9, 0, 0, 0⟩ ⟨17, 0, 0, 0⟩ ⟨10, 30, 0, 0⟩ = false) :=
  within_work_hours_spec ⟨9, 0, 0, 0⟩ ⟨17, 0, 0, 0⟩ ⟨10, 30, 0, 0⟩
    (by decide) (by decide) (by decide)

/-- C2: the sleep duration until the next work start is non-negative, the
target date-time has time of day `start`, the target is today's occurrence
of `start` when `start` is still strictly in the future relative to `now`'s
time of day and tomorrow's occurrence otherwise (including the case of
exact equality), and `now` plus the duration equals that target. -/
theorem seconds_until_next_start_spec (now : DateTime) (start : Time)
    (hn : now.time.Valid) (hs : start.Valid) :
    0 ≤ seconds_until_next_start now start ∧
    (next_work_start now start).time = start ∧
    next_work_start now start =
      (if now.time.toMicro < start.toMicro then DateTime.mk now.day start
       else DateTime.mk (now.day + 1) start) ∧
    (now.toMicro : Int) + seconds_until_next_start now start =
      ((next_work_start now start).toMicro : Int) := by
  have hday := Time.toMicro_lt_day hn
  have hkey : DateTime.le ⟨now.day, start⟩ now = true ↔
      start.toMicro ≤ now.time.toMicro := by
    simp only [DateTime.le, if_pos rfl]
    exact Time.le_iff_toMicro hs hn
  by_cases hc : start.toMicro ≤ now.time.toMicro
  · have hle : DateTime.le ⟨now.day, start⟩ now = true := hkey.mpr hc
    have hnext : next_work_start now start = ⟨now.day + 1, start⟩ := by
      simp [next_work_start, hle]
    refine ⟨le_max_right _ _, by rw [hnext], ?_, ?_⟩
    · rw [hnext, if_neg (by omega)]
    · rw [hnext]
      simp only [seconds_until_next_start, time_until, hnext, DateTime.toMicro]
      rw [max_eq_left (by push_cast; omega)]
      omega
  · have hle : DateTime.le ⟨now.day, start⟩ now = false := by
      cases hb : DateTime.le ⟨now.day, start⟩ now
      · rfl
      · exact absurd (hkey.mp hb) hc
    have hnext : next_work_start now start = ⟨now.day, start⟩ := by
      simp [next_work_start, hle]
    refine ⟨le_max_right _ _, by rw [hnext], ?_, ?_⟩
    · rw [hnext, if_pos (by omega)]
    · rw [hnext]
      simp only [seconds_until_next_start, time_until, hnext, DateTime.toMicro]
      rw [max_eq_left (by push_cast; omega)]
      omega

/-- Witness for C2 at day 0, clock 10:30:00, work start 09:00 (the start
has already passed, so the next start is tomorrow). -/
theorem seconds_until_next_start_spec_witness :
    0 ≤ seconds_until_next_start ⟨0, ⟨10, 30, 0, 0⟩⟩ ⟨9, 0, 0, 0⟩ ∧
    (next_work_start ⟨0, ⟨10, 30, 0, 0⟩⟩ ⟨9, 0, 0, 0⟩).time = ⟨9, 0, 0, 0⟩ ∧
    next_work_start ⟨0, ⟨10, 30, 0, 0⟩⟩ ⟨9, 0, 0, 0⟩ =
      (if Time.toMicro ⟨10, 30, 0, 0⟩ < Time.toMicro ⟨9, 0, 0, 0⟩ then
        DateTime.mk 0 ⟨9, 0, 0, 0⟩
       else DateTime.mk 1 ⟨9, 0, 0, 0⟩) ∧
    (DateTime.toMicro ⟨0, ⟨10, 30, 0, 0⟩⟩ : Int) +
        seconds_until_next_start ⟨0, ⟨10, 30, 0, 0⟩⟩ ⟨9, 0, 0, 0⟩ =
      ((next_work_start ⟨0, ⟨10, 30, 0, 0⟩⟩ ⟨9, 0, 0, 0⟩).toMicro : Int) :=
  seconds_until_next_start_spec ⟨0, ⟨10, 30, 0, 0⟩⟩ ⟨9, 0, 0, 0⟩
    (by decide) (by decide)

/-- Steady state: once `first_run` is false, every in-window iteration
emits the fixed reminder and an interval sleep. -/
theorem loopRun_steady (interval : Int) (n : Nat) :
    loopRun interval false (List.replicate n true) =
      (List.replicate n
        [Event.notify NOTIFICATION_TITLE NOTIFICATION_MESSAGE 10,
         Event.sleepInterval interval]).flatten := by
  induction n with
  | zero => rfl
  | succ k ih =>
    simp [loopRun, loopIter, List.replicate_succ, ih]

/-- C3: starting with `first_run = true` and an in-window check, the first
events are the "Starting work." notification (timeout 10) and a full
`interval` suspension; every later iteration whose check stays in-window
emits the fixed break reminder (timeout 10) followed by an `interval`
suspension. -/
theorem loop_start_in_window (interval : Int) (n : Nat) :
    loopRun interval true (true :: List.replicate n true) =
      Event.notify NOTIFICATION_TITLE "Starting work." 10 ::
      Event.sleepInterval interval ::
      (List.replicate n
        [Event.notify NOTIFICATION_TITLE NOTIFICATION_MESSAGE 10,
         Event.sleepInterval interval]).flatten := by
  simp [loopRun, loopIter, loopRun_steady]

/-- C4: an iteration whose window check fails sets `first_run` to true,
whatever its previous value (both on a transition from inside to outside
the window and when starting outside it); consequently after any failed
check the next in-window iteration emits the "Starting work." greeting
first. -/
theorem first_run_reset_on_window_exit (interval : Int) (first_run : Bool)
    (bs : List Bool) :
    (loopIter interval false first_run).2 = true ∧
    loopRun interval first_run (false :: true :: bs) =
      Event.sleepUntilStart ::
      Event.notify NOTIFICATION_TITLE "Starting work." 10 ::
      Event.sleepInterval interval ::
      loopRun interval false bs := by
  constructor
  · rfl
  · simp [loopRun, loopIter]

/-- C10: an iteration whose window check fails emits no notification at
all — its only event is the suspension until the next work start; hence a
notification is sent in an iteration only when that iteration's check
succeeded. -/
theorem no_notification_outside_window (interval : Int)
    (first_run b : Bool) (h : b = false) :
    (loopIter interval b first_run).1 = [Event.sleepUntilStart] ∧
    ∀ t m k, Event.notify t m k ∉ (loopIter interval b first_run).1 := by
  subst h
  refine ⟨rfl, ?_⟩
  intro t m k hmem
  simp [loopIter] at hmem

/-- Witness for C10 with interval 5, flag true, check false. -/
theorem no_notification_outside_window_witness :
    (loopIter 5 false true).1 = [Event.sleepUntilStart] :=
  (no_notification_outside_window 5 true false rfl).1

/-- C5: a missing configuration file yields the full default result
`{3600, "09:00", "17:00"}` with no error; an existing file without the
`interval` key loads without error, with the interval defaulted to 3600
and the `start` / `end` values defaulted exactly where absent; and in any
successful load from an existing file, a missing `start` key yields
"09:00" and a missing `end` key yields "17:00". -/
theorem load_config_defaults (f : ConfigFile) :
    load_config none = Except.ok ⟨3600, "09:00", "17:00"⟩ ∧
    (f.get "schedule" "interval" = none →
      load_config (some f) =
        Except.ok ⟨3600, (f.get "workhours" "start").getD "09:00",
          (f.get "workhours" "end").getD "17:00"⟩) ∧
    (∀ raw, load_config (some f) = Except.ok raw →
      (f.get "workhours" "start" = none → raw.start = "09:00") ∧
      (f.get "workhours" "end" = none → raw.endt = "17:00")) := by
  refine ⟨rfl, ?_, ?_⟩
  · intro h
    simp [load_config, h, DEFAULT_INTERVAL, DEFAULT_START, DEFAULT_END]
  · intro raw hok
    simp only [load_config] at hok
    have hfields : raw.start = (f.get "workhours" "start").getD DEFAULT_START ∧
        raw.endt = (f.get "workhours" "end").getD DEFAULT_END := by
      split at hok
      · injection hok with hok
        rw [← hok]
        exact ⟨rfl, rfl⟩
      · split at hok
        · exact absurd hok (by simp)
        · injection hok with hok
          rw [← hok]
          exact ⟨rfl, rfl⟩
    constructor
    · intro hs
      rw [hfields.1, hs]
      rfl
    · intro he
      rw [hfields.2, he]
      rfl

/-- Witness for C5 at the empty configuration file and at a file holding
only `interval = 42` (so both work-hours keys are absent). -/
theorem load_config_defaults_witness :
    load_config none = Except.ok ⟨3600, "09:00", "17:00"⟩ ∧
    load_config (some ⟨[]⟩) = Except.ok ⟨3600, "09:00", "17:00"⟩ ∧
    (⟨42, "09:00", "17:00"⟩ : RawConfig).start = "09:00" ∧
    (⟨42, "09:00", "17:00"⟩ : RawConfig).endt = "17:00" := by
  refine ⟨(load_config_defaults ⟨[]⟩).1, ?_, ?_, ?_⟩
  · have h := (load_config_defaults ⟨[]⟩).2.1 rfl
    simpa using h
  · exact (((load_config_defaults ⟨[(("schedule", "interval"), "42")]⟩).2.2
      ⟨42, "09:00", "17:00"⟩ rfl).1) rfl
  · exact (((load_config_defaults ⟨[(("schedule", "interval"), "42")]⟩).2.2
      ⟨42, "09:00", "17:00"⟩ rfl).2) rfl

/-- C6: if an existing configuration file holds a malformed integer for
`interval`, or a malformed `HH:MM` string for the work-hours `start`, or a
malformed `HH:MM` string for the work-hours `end`, configuration
resolution fails with an error instead of substituting a default. -/
theorem resolve_malformed_errors (f g k : ConfigFile) (s t u : String)
    (h1 : f.get "schedule" "interval" = some s)
    (h2 : pyParseInt s = none)
    (h3 : g.get "workhours" "start" = some t)
    (h4 : parse_time t = none)
    (h5 : k.get "workhours" "end" = some u)
    (h6 : parse_time u = none) :
    isError (resolve (some f)) = true ∧
    isError (resolve (some g)) = true ∧
    isError (resolve (some k)) = true := by
  refine ⟨?_, ?_, ?_⟩
  · simp [resolve, load_config, h1, h2, isError]
  · unfold resolve load_config
    cases hgi : g.get "schedule" "interval" with
    | none => simp [hgi, h3, h4, isError]
    | some v =>
      cases hpv : pyParseInt v with
      | none => simp [hgi, hpv, isError]
      | some n => simp [hgi, hpv, h3, h4, isError]
  · unfold resolve load_config
    cases hki : k.get "schedule" "interval" with
    | none =>
      cases hps : parse_time ((k.get "workhours" "start").getD DEFAULT_START) with
      | none => simp [hki, hps, isError]
      | some w => simp [hki, hps, h5, h6, isError]
    | some v =>
      cases hpv : pyParseInt v with
      | none => simp [hki, hpv, isError]
      | some n =>
        cases hps : parse_time ((k.get "workhours" "start").getD DEFAULT_START) with
        | none => simp [hki, hpv, hps, isError]
        | some w => simp [hki, hpv, hps, h5, h6, isError]

/-- Witness for C6: a file with `interval = abc`, a file with
`start = 9am`, and a file with `end = 99:99` all make resolution fail. -/
theorem resolve_malformed_errors_witness :
    isError (resolve (some ⟨[(("schedule", "interval"), "abc")]⟩)) = true ∧
    isError (resolve (some ⟨[(("workhours", "start"), "9am")]⟩)) = true ∧
    isError (resolve (some ⟨[(("workhours", "end"), "99:99")]⟩)) = true :=
  resolve_malformed_errors ⟨[(("schedule", "interval"), "abc")]⟩
    ⟨[(("workhours", "start"), "9am")]⟩ ⟨[(("workhours", "end"), "99:99")]⟩
    "abc" "9am" "99:99" rfl rfl rfl rfl rfl rfl

/-- C7: whenever the user-specific path differs from the system-wide one,
`get_config_path` returns the user-specific path exactly when a file
exists there; when no file exists there it returns the fixed path
`/etc/xdg/break-reminder.conf` regardless of whether that file exists, and
with `XDG_CONFIG_HOME` unset the user-specific path is built from
`~/.config`. -/
theorem get_config_path_spec (fsExists : String → Bool)
    (xdg : Option String) (home : String)
    (hne : USER_CONFIG_PATH xdg home ≠ SYSTEM_CONFIG_PATH) :
    (get_config_path fsExists xdg home = USER_CONFIG_PATH xdg home ↔
      fsExists (USER_CONFIG_PATH xdg home) = true) ∧
    (fsExists (USER_CONFIG_PATH xdg home) = false →
      get_config_path fsExists xdg home = "/etc/xdg/break-reminder.conf") ∧
    (xdg = none →
      USER_CONFIG_PATH xdg home =
        pathJoin (expanduser home "~/.config") "break-reminder.conf") := by
  refine ⟨?_, ?_, ?_⟩
  · constructor
    · intro heq
      cases hb : fsExists (USER_CONFIG_PATH xdg home)
      · rw [get_config_path, hb] at heq
        simp at heq
        exact absurd heq.symm hne
      · rfl
    · intro hb
      simp [get_config_path, hb]
  · intro hb
    simp [get_config_path, hb, SYSTEM_CONFIG_PATH]
  · rintro rfl
    rfl

/-- Witness for C7 with `XDG_CONFIG_HOME` unset, home `/home/user`, and an
oracle under which no file exists. -/
theorem get_config_path_spec_witness :
    (get_config_path (fun _ => false) none "/home/user" =
        USER_CONFIG_PATH none "/home/user" ↔
      (fun _ : String => false) (USER_CONFIG_PATH none "/home/user") = true) ∧
    ((fun _ : String => false) (USER_CONFIG_PATH none "/home/user") = false →
      get_config_path (fun _ => false) none "/home/user" =
        "/etc/xdg/break-reminder.conf") ∧
    ((none : Option String) = none →
      USER_CONFIG_PATH none "/home/user" =
        pathJoin (expanduser "/home/user" "~/.config") "break-reminder.conf") :=
  get_config_path_spec (fun _ => false) none "/home/user" (by decide)

/-- C8 counterexample: a configuration file whose `[schedule] interval`
value is `"0"` resolves without error to a configuration with
`interval_seconds = 0`, so resolution does not guarantee
`interval_seconds > 0`. -/
theorem resolve_interval_zero_cex :
    resolve (some ⟨[(("schedule", "interval"), "0")]⟩) =
      Except.ok ⟨0, ⟨9, 0, 0, 0⟩, ⟨17, 0, 0, 0⟩⟩ ∧
    ¬ (0 < (0 : Int)) := by
  exact ⟨rfl, by decide⟩

/-- C8 (amended): every configuration produced by `resolve` has valid
times of day for `work_start` and `work_end` (hour 0–23, minute 0–59);
`interval_seconds` is the file's integer unchecked, and it is the positive
default 3600 whenever the file is absent or lacks the `interval` key. -/
theorem resolve_invariant_amended (file : Option ConfigFile)
    (cfg : Configuration) (h : resolve file = Except.ok cfg) :
    cfg.work_start.Valid ∧ cfg.work_end.Valid ∧
    ((file = none ∨
        ∃ f, file = some f ∧ f.get "schedule" "interval" = none) →
      0 < cfg.interval) := by
  unfold resolve at h
  split at h
  · exact absurd h (by simp)
  · rename_i raw hl
    split at h
    · exact absurd h (by simp)
    · rename_i ws hws
      split at h
      · exact absurd h (by simp)
      · rename_i we hwe
        injection h with h
        subst h
        refine ⟨parse_time_valid hws, parse_time_valid hwe, ?_⟩
        rintro (rfl | ⟨f, rfl, hmiss⟩)
        · simp only [load_config] at hl
          injection hl with hl
          rw [← hl]
          simp [DEFAULT_INTERVAL]
        · simp only [load_config, hmiss] at hl
          injection hl with hl
          rw [← hl]
          simp [DEFAULT_INTERVAL]

/-- Witness for the amended C8 at the empty configuration file. -/
theorem resolve_invariant_amended_witness :
    Time.Valid ⟨9, 0, 0, 0⟩ ∧ Time.Valid ⟨17, 0, 0, 0⟩ ∧
    (((some (⟨[]⟩ : ConfigFile) : Option ConfigFile) = none ∨
        ∃ f, (some (⟨[]⟩ : ConfigFile) : Option ConfigFile) = some f ∧
          f.get "schedule" "interval" = none) →
      0 < (3600 : Int)) :=
  resolve_invariant_amended (some ⟨[]⟩) ⟨3600, ⟨9, 0, 0, 0⟩, ⟨17, 0, 0, 0⟩⟩ rfl

/-- C9: resolving twice against an unchanged file system and environment
yields equal results — resolution is deterministic in the ambient state
and leaves that state unchanged. -/
theorem resolve_idempotent (w : World) :
    (resolveWorld (resolveWorld w).2).1 = (resolveWorld w).1 ∧
    (resolveWorld w).2 = w :=
  ⟨rfl, rfl⟩

end BreakReminder
